import Mathlib

/-!
Shallow embedding of `src/inspector_io.cc`: the inspector I/O bridge
(`InspectorIo`), its two message queues, the session table, the bridge
state machine, the transport-side delegate (`InspectorIoDelegate`) and
the UUID generator (`GenerateID`).

Modelling conventions:
* The two worker threads are not modelled as threads; each C++ member
  function becomes a pure function from a `Bridge` state to a new
  `Bridge` state plus a list of observable `Event`s (side effects such
  as stderr output, peer-thread wakeups, calls into the runtime agent).
* `uint16_t` entropy words are `Nat` reduced `% 2^16`; the C bitmask
  operators `&`/`|` are `Nat` bitwise and/or.
* `CHECK`-style fatal assertions become `Option`: `none` models the
  process abort.
* Message payloads (`StringBuffer`) are modelled as `String`; the
  UTF-8 <-> UTF-16 conversion of `Utf8ToStringView` is the identity on
  this abstract payload.
-/

set_option maxRecDepth 4096

/-- The `enum class State` of `InspectorIo` (inspector_io.h). -/
inductive State where
  | kNew
  | kAccepting
  | kDone
  | kError
  | kShutDown
deriving DecidableEq

/-- The `enum class InspectorAction`: the incoming-queue action alphabet. -/
inductive InspectorAction where
  | kStartSession
  | kStartSessionUnconditionally
  | kEndSession
  | kSendMessage
deriving DecidableEq

/-- The `enum class TransportAction`: the outgoing-queue action alphabet. -/
inductive TransportAction where
  | kKill
  | kSendMessage
  | kStop
  | kAcceptSession
  | kDeclineSession
deriving DecidableEq

/-- Observable side effects of the bridge operations. -/
inductive Event where
  /-- The `uv_async_send(&thread_req_)` issued by `InspectorIo::Write`:
  a wakeup of the I/O thread. -/
  | wakeIoThread
  /-- The three-channel wakeup of the runtime thread issued by
  `PostIncomingMessage` when `AppendMessage` returned true
  (`CallOnForegroundThread` + `RequestInterrupt` + `uv_async_send`). -/
  | wakeRuntimeThread
  /-- The `incoming_message_cond_.Broadcast` at the end of
  `PostIncomingMessage`. -/
  | broadcastIncoming
  /-- The `fprintf(stderr, s)`. -/
  | stderrMsg (s : String)
  /-- The `agent->Connect(...)` performed by `InspectorIo::Attach`;
  `handle` is the returned session handle. -/
  | agentConnect (sid : Int) (handle : Nat)
  /-- The `session->second->Dispatch(message)` on a stored session handle. -/
  | sessionDispatch (sid : Int) (handle : Nat) (payload : String)
  /-- The `io_->ResumeStartup()` called by the transport delegate. -/
  | resumeStartup
  /-- The `uv_thread_join(&thread_)` in `InspectorIo::Stop`. -/
  | threadJoin
  /-- The `server_->AcceptSession(session_id)` called directly by
  `InspectorIoDelegate::StartSession` in waiting mode. -/
  | acceptSessionDirect (sid : Int)
deriving DecidableEq

/-- One element of a `MessageQueue<ActionType>`: the C++ tuple
`(ActionType, int session_id, unique_ptr<StringBuffer>)`. -/
structure Msg (α : Type) where
  action : α
  sid : Int
  payload : String
deriving DecidableEq

/-- The bridge object `InspectorIo`.  Fields irrelevant to the claims
(options, uv handles, semaphores, the generated id string) are omitted;
`nextHandle` numbers the session handles returned by `Agent::Connect`. -/
structure Bridge where
  state : State
  /-- The `sessions_ : std::map<int, unique_ptr<InspectorSession>>`,
  as an association list with unique keys; the value is `none` for a
  null handle. -/
  sessions : List (Int × Option Nat)
  nextHandle : Nat
  /-- The `incoming_message_queue_`. -/
  incoming : List (Msg InspectorAction)
  /-- The `outgoing_message_queue_`. -/
  outgoing : List (Msg TransportAction)
  /-- The `dispatching_message_queue_`. -/
  dispatching : List (Msg InspectorAction)
  /-- The `dispatching_messages_`. -/
  dispatchingFlag : Bool
  /-- The `wait_for_connect_`. -/
  waitForConnect : Bool
deriving DecidableEq

/-- Bridge state right after the `InspectorIo` constructor. -/
def initBridge (wait : Bool) : Bridge :=
  { state := .kNew, sessions := [], nextHandle := 0, incoming := [],
    outgoing := [], dispatching := [], dispatchingFlag := false,
    waitForConnect := wait }

/-- The `sessions_.find(id)` (and the null test on the mapped value). -/
def sessionsFind (s : List (Int × Option Nat)) (k : Int) : Option (Option Nat) :=
  match s with
  | [] => none
  | (k', v) :: rest => if k' = k then some v else sessionsFind rest k

/-- The `sessions_[id] = handle` (insert-or-assign of `std::map`). -/
def sessionsInsert (s : List (Int × Option Nat)) (k : Int) (v : Option Nat) :
    List (Int × Option Nat) :=
  match s with
  | [] => [(k, v)]
  | (k', v') :: rest =>
      if k' = k then (k, v) :: rest else (k', v') :: sessionsInsert rest k v

/-- The `sessions_.erase(id)`. -/
def sessionsErase (s : List (Int × Option Nat)) (k : Int) :
    List (Int × Option Nat) :=
  match s with
  | [] => []
  | (k', v') :: rest =>
      if k' = k then rest else (k', v') :: sessionsErase rest k

/-- The `InspectorIo::AppendMessage`: records whether the queue was empty
before the push, enqueues, and returns that boolean together with the
grown queue. -/
def AppendMessage (queue : List (Msg α)) (action : α) (sid : Int)
    (payload : String) : Bool × List (Msg α) :=
  (queue.isEmpty, queue ++ [⟨action, sid, payload⟩])

/-- The `InspectorIo::SwapBehindLock`: swaps the contents of the two
queues. -/
def SwapBehindLock (v1 v2 : List (Msg α)) : List (Msg α) × List (Msg α) :=
  (v2, v1)

/-- The `InspectorIo::Write`: appends to the outgoing queue, then issues
`uv_async_send(&thread_req_)` unconditionally (the boolean returned by
`AppendMessage` is discarded). -/
def Write (b : Bridge) (action : TransportAction) (sid : Int)
    (payload : String) : Bridge × List Event :=
  let r := AppendMessage b.outgoing action sid payload
  ({ b with outgoing := r.2 }, [Event.wakeIoThread])

/-- The `InspectorIo::PostIncomingMessage`: appends to the incoming queue;
if `AppendMessage` returned true, wakes the runtime thread over all
three channels; always broadcasts `incoming_message_cond_`. -/
def PostIncomingMessage (b : Bridge) (action : InspectorAction) (sid : Int)
    (message : String) : Bridge × List Event :=
  let r := AppendMessage b.incoming action sid message
  let wake := if r.1 then [Event.wakeRuntimeThread] else []
  ({ b with incoming := r.2 }, wake ++ [Event.broadcastIncoming])

/-- The `InspectorIo::Attach`: prints "Debugger attached." to stderr,
connects to the runtime agent, stores the returned session handle in
the session table, and returns `kAcceptSession`. -/
def Attach (b : Bridge) (sid : Int) : Bridge × List Event × TransportAction :=
  let handle := b.nextHandle
  ({ b with sessions := sessionsInsert b.sessions sid (some handle),
            nextHandle := handle + 1 },
   [Event.stderrMsg "Debugger attached.\n", Event.agentConnect sid handle],
   TransportAction.kAcceptSession)

/-- The `switch (std::get<0>(task))` body of `InspectorIo::DispatchMessages`,
processing a single message popped from the dispatching queue. -/
def processTask (b : Bridge) (m : Msg InspectorAction) : Bridge × List Event :=
  match m.action with
  | .kStartSession =>
      let r := Attach b m.sid
      let w := Write r.1 r.2.2 m.sid ""
      (w.1, r.2.1 ++ w.2)
  | .kStartSessionUnconditionally =>
      let r := Attach b m.sid
      (r.1, r.2.1)
  | .kEndSession =>
      let s := sessionsErase b.sessions m.sid
      if s.isEmpty then
        if b.state = .kShutDown then
          ({ b with sessions := s, state := .kDone }, [])
        else
          ({ b with sessions := s, state := .kAccepting }, [])
      else
        ({ b with sessions := s }, [])
  | .kSendMessage =>
      match sessionsFind b.sessions m.sid with
      | some (some handle) => (b, [Event.sessionDispatch m.sid handle m.payload])
      | _ => (b, [])

/-- The inner `while (!dispatching_message_queue_.empty())` loop:
processes a list of popped messages in order. -/
def processTasks (b : Bridge) : List (Msg InspectorAction) → Bridge × List Event
  | [] => (b, [])
  | m :: ms =>
      let r := processTask b m
      let r2 := processTasks r.1 ms
      (r2.1, r.2 ++ r2.2)

/-- The do/while loop (condition `had_messages`) of
`InspectorIo::DispatchMessages`.  `fuel` bounds the number of loop
iterations; since processing a task never appends to the incoming or
dispatching queue, `incoming.length + dispatching.length + 1`
iterations always suffice (proved by `dispatchLoop_spec` below). -/
def dispatchLoop : Nat → Bridge → Bridge × List Event
  | 0, b => (b, [])
  | fuel + 1, b =>
      let b1 :=
        if b.dispatching.isEmpty then
          let s := SwapBehindLock b.incoming b.dispatching
          { b with incoming := s.1, dispatching := s.2 }
        else b
      let had := !b1.dispatching.isEmpty
      let r := processTasks { b1 with dispatching := [] } b1.dispatching
      if had then
        let r2 := dispatchLoop fuel r.1
        (r2.1, r.2 ++ r2.2)
      else r

/-- The `InspectorIo::DispatchMessages`: re-entrancy guard, then the
swap-and-drain loop, then the guard is cleared. -/
def DispatchMessages (b : Bridge) : Bridge × List Event :=
  if b.dispatchingFlag then (b, [])
  else
    let r := dispatchLoop (b.incoming.length + b.dispatching.length + 1)
      { b with dispatchingFlag := true }
    ({ r.1 with dispatchingFlag := false }, r.2)

/-- The `InspectorIo::Start`.  `CHECK_EQ(state_, State::kNew)` aborts
(`none`) on any other state.  `serverOk` is the outcome of
`server.Start()` observed by `ThreadMain` before it posts the
start-barrier semaphore; on failure the I/O thread has set
`state_ = kError` and `Start` returns `false`. -/
def Start (b : Bridge) (serverOk : Bool) :
    Option (Bridge × Bool × List Event) :=
  if b.state = .kNew then
    if serverOk then
      let b1 := { b with state := State.kAccepting }
      if b.waitForConnect then
        let r := DispatchMessages b1
        some (r.1, true, r.2)
      else
        some (b1, true, [])
    else
      some ({ b with state := State.kError }, false, [])
  else none

/-- The `InspectorIo::Stop`: `CHECK_IMPLIES(sessions_.empty(), state_ ==
kAccepting)` aborts (`none`) when the table is empty but the state is
not `kAccepting`; otherwise writes `kKill`, joins the I/O thread, sets
`state_ = kShutDown`, and runs a final `DispatchMessages`. -/
def Stop (b : Bridge) : Option (Bridge × List Event) :=
  if b.sessions.isEmpty ∧ b.state ≠ .kAccepting then none
  else
    let r1 := Write b .kKill 0 ""
    let b2 := { r1.1 with state := State.kShutDown }
    let r2 := DispatchMessages b2
    some (r2.1, r1.2 ++ [Event.threadJoin] ++ r2.2)

/-- The `InspectorIo::WaitForDisconnect`. -/
def WaitForDisconnect (b : Bridge) : Bridge × List Event :=
  let b1 := if b.state = .kAccepting then { b with state := State.kDone } else b
  if b1.sessions.isEmpty then (b1, [])
  else
    let b2 := { b1 with state := State.kShutDown }
    let r := Write b2 .kStop 0 ""
    (r.1, r.2 ++ [Event.stderrMsg "Waiting for the debugger to disconnect...\n"])

/-- The mutable state of `InspectorIoDelegate` (the transport-side
delegate): `session_id_` and `waiting_`. -/
structure Delegate where
  sessionId : Int
  waiting : Bool
deriving DecidableEq

/-- Delegate state right after the `InspectorIoDelegate` constructor,
with `waiting_` initialised from `wait_for_connect`. -/
def initDelegate (wait : Bool) : Delegate :=
  { sessionId := 0, waiting := wait }

/-- Naive substring search on character lists, modelling
`std::string::find(pat) != std::string::npos`. -/
def strContainsAux (pat : List Char) : List Char → Bool
  | [] => pat.isEmpty
  | c :: rest => pat.isPrefixOf (c :: rest) || strContainsAux pat rest

/-- The `hay.find(pat) != std::string::npos`. -/
def strContains (hay pat : String) : Bool :=
  strContainsAux pat.toList hay.toList

namespace InspectorIoDelegate

/-- The `InspectorIoDelegate::StartSession`: records the session id; in
waiting mode accepts the session directly on the server and posts
`kStartSessionUnconditionally`, otherwise posts `kStartSession`. -/
def StartSession (d : Delegate) (b : Bridge) (sid : Int) :
    Delegate × Bridge × List Event :=
  let d' := { d with sessionId := sid }
  if d.waiting then
    let r := PostIncomingMessage b .kStartSessionUnconditionally sid ""
    (d', r.1, Event.acceptSessionDirect sid :: r.2)
  else
    let r := PostIncomingMessage b .kStartSession sid ""
    (d', r.1, r.2)

/-- The `InspectorIoDelegate::MessageReceived`: in waiting mode, if the
message contains the quoted substring
`"Runtime.runIfWaitingForDebugger"` (quote characters included, as in
the C++ string literal), clears `waiting_` and calls
`io_->ResumeStartup()`; in all cases posts `kSendMessage`. -/
def MessageReceived (d : Delegate) (b : Bridge) (sid : Int)
    (message : String) : Delegate × Bridge × List Event :=
  let r :=
    if d.waiting then
      if strContains message "\"Runtime.runIfWaitingForDebugger\"" then
        ({ d with waiting := false }, [Event.resumeStartup])
      else (d, ([] : List Event))
    else (d, [])
  let r2 := PostIncomingMessage b .kSendMessage sid message
  (r.1, r2.1, r.2 ++ r2.2)

/-- The `InspectorIoDelegate::EndSession`: posts `kEndSession`. -/
def EndSession (_d : Delegate) (b : Bridge) (sid : Int) :
    Bridge × List Event :=
  PostIncomingMessage b .kEndSession sid ""

end InspectorIoDelegate

/-- The sixteen lowercase hexadecimal digit characters produced by
`snprintf` with format `%04x`, for a digit value below 16. -/
def hexDigit (n : Nat) : Char :=
  if n < 10 then Char.ofNat (48 + n) else Char.ofNat (87 + n)

/-- The four hex characters `%04x` prints for a `uint16_t` value:
the four low hexadecimal digits, most significant first. -/
def toHex4 (n : Nat) : List Char :=
  [hexDigit (n / 4096 % 16), hexDigit (n / 256 % 16),
   hexDigit (n / 16 % 16), hexDigit (n % 16)]

/-- The `GenerateID`: fills a `uint16_t buffer[8]` from the entropy source
and prints `"%04x%04x-%04x-%04x-%04x-%04x%04x%04x"` with
`(buffer[3] & 0x0fff) | 0x4000` in the version group and
`(buffer[4] & 0x3fff) | 0x8000` in the variant group.  `entropy i` is
the `i`-th 16-bit word, reduced `% 2^16`. -/
def GenerateID (entropy : Fin 8 → Nat) : String :=
  let b : Fin 8 → Nat := fun i => entropy i % 65536
  String.mk
    (toHex4 (b 0) ++ toHex4 (b 1) ++ ['-'] ++ toHex4 (b 2) ++ ['-'] ++
     toHex4 ((b 3 &&& 0x0fff) ||| 0x4000) ++ ['-'] ++
     toHex4 ((b 4 &&& 0x3fff) ||| 0x8000) ++ ['-'] ++
     toHex4 (b 5) ++ toHex4 (b 6) ++ toHex4 (b 7))

/-- Returns `true` for the characters matched by `[0-9a-f]`. -/
def isHexLower (c : Char) : Bool :=
  ('0' ≤ c && c ≤ '9') || ('a' ≤ c && c ≤ 'f')

/-- Decides the regular expression
`^[0-9a-f]\x7b8\x7d-[0-9a-f]\x7b4\x7d-4[0-9a-f]\x7b3\x7d-[89ab][0-9a-f]\x7b3\x7d-[0-9a-f]\x7b12\x7d$`:
36 characters, hyphens at positions 8, 13, 18, 23, the version nibble
`4` at position 14, the variant nibble in `[89ab]` at position 19, and
lowercase hex everywhere else. -/
def uuidV4ShapeChars (l : List Char) : Bool :=
  match l with
  | a0 :: a1 :: a2 :: a3 :: a4 :: a5 :: a6 :: a7 :: h1 ::
    b0 :: b1 :: b2 :: b3 :: h2 ::
    v0 :: c1 :: c2 :: c3 :: h3 ::
    w0 :: d1 :: d2 :: d3 :: h4 ::
    e0 :: e1 :: e2 :: e3 :: e4 :: e5 :: e6 :: e7 :: e8 :: e9 :: e10 ::
    e11 :: [] =>
      [a0, a1, a2, a3, a4, a5, a6, a7, b0, b1, b2, b3, c1, c2, c3,
       d1, d2, d3, e0, e1, e2, e3, e4, e5, e6, e7, e8, e9, e10,
       e11].all isHexLower
      && h1 == '-' && h2 == '-' && h3 == '-' && h4 == '-'
      && v0 == '4'
      && (w0 == '8' || w0 == '9' || w0 == 'a' || w0 == 'b')
  | _ => false

/-- String form of `uuidV4ShapeChars`. -/
def uuidV4Shape (s : String) : Bool :=
  uuidV4ShapeChars s.toList

/-- States of the pair (bridge, transport delegate) reachable from
construction through the operations of the source: `Start`, `Stop`,
`WaitForDisconnect`, `DispatchMessages`, the runtime-session delegate's
`Write` of `kSendMessage`, and the three transport-delegate entry
points. -/
inductive Reached : Bridge → Delegate → Prop where
  | init (wait : Bool) : Reached (initBridge wait) (initDelegate wait)
  | startStep {b d b2 ret evs} (ok : Bool) :
      Reached b d → Start b ok = some (b2, ret, evs) → Reached b2 d
  | stopStep {b d b2 evs} :
      Reached b d → Stop b = some (b2, evs) → Reached b2 d
  | waitDisconnectStep {b d} :
      Reached b d → Reached (WaitForDisconnect b).1 d
  | dispatchStep {b d} :
      Reached b d → Reached (DispatchMessages b).1 d
  | writeSendStep {b d} (sid : Int) (p : String) :
      Reached b d → Reached (Write b .kSendMessage sid p).1 d
  | startSessionStep {b d} (sid : Int) :
      Reached b d →
      Reached (InspectorIoDelegate.StartSession d b sid).2.1
        (InspectorIoDelegate.StartSession d b sid).1
  | messageReceivedStep {b d} (sid : Int) (msg : String) :
      Reached b d →
      Reached (InspectorIoDelegate.MessageReceived d b sid msg).2.1
        (InspectorIoDelegate.MessageReceived d b sid msg).1
  | endSessionStep {b d} (sid : Int) :
      Reached b d → Reached (InspectorIoDelegate.EndSession d b sid).1 d

/-!  Helper lemmas about the dispatch loop.  Processing a task reads
and writes only `state`, `sessions`, `nextHandle` and `outgoing`; the
queues drained by the loop and the re-entrancy flag are untouched. -/

theorem processTask_congr (b : Bridge) (x y : List (Msg InspectorAction))
    (f : Bool) (m : Msg InspectorAction) :
    processTask { b with incoming := x, dispatching := y,
                         dispatchingFlag := f } m
      = ({ (processTask b m).1 with incoming := x, dispatching := y,
                                    dispatchingFlag := f },
         (processTask b m).2) := by
  obtain ⟨action, sid, payload⟩ := m
  cases action <;>
    simp only [processTask, Attach, Write, AppendMessage] <;>
    first
      | rfl
      | (split <;> (try split) <;> rfl)

theorem processTask_fields (b : Bridge) (m : Msg InspectorAction) :
    (processTask b m).1.incoming = b.incoming ∧
    (processTask b m).1.dispatching = b.dispatching ∧
    (processTask b m).1.dispatchingFlag = b.dispatchingFlag := by
  have h := processTask_congr b b.incoming b.dispatching b.dispatchingFlag m
  rw [show ({ b with incoming := b.incoming, dispatching := b.dispatching,
                     dispatchingFlag := b.dispatchingFlag } : Bridge) = b
    from rfl] at h
  rw [h]
  exact ⟨rfl, rfl, rfl⟩

theorem processTasks_congr (ms : List (Msg InspectorAction)) (b : Bridge)
    (x y : List (Msg InspectorAction)) (f : Bool) :
    processTasks { b with incoming := x, dispatching := y,
                          dispatchingFlag := f } ms
      = ({ (processTasks b ms).1 with incoming := x, dispatching := y,
                                      dispatchingFlag := f },
         (processTasks b ms).2) := by
  induction ms generalizing b with
  | nil => rfl
  | cons m ms ih =>
      simp only [processTasks]
      rw [processTask_congr, ih (processTask b m).1]

theorem processTasks_fields (b : Bridge) (ms : List (Msg InspectorAction)) :
    (processTasks b ms).1.incoming = b.incoming ∧
    (processTasks b ms).1.dispatching = b.dispatching ∧
    (processTasks b ms).1.dispatchingFlag = b.dispatchingFlag := by
  have h := processTasks_congr ms b b.incoming b.dispatching b.dispatchingFlag
  rw [show ({ b with incoming := b.incoming, dispatching := b.dispatching,
                     dispatchingFlag := b.dispatchingFlag } : Bridge) = b
    from rfl] at h
  rw [h]
  exact ⟨rfl, rfl, rfl⟩

theorem processTasks_append (b : Bridge)
    (ms ns : List (Msg InspectorAction)) :
    processTasks b (ms ++ ns)
      = ((processTasks (processTasks b ms).1 ns).1,
         (processTasks b ms).2 ++ (processTasks (processTasks b ms).1 ns).2) := by
  induction ms generalizing b with
  | nil => simp [processTasks]
  | cons m ms ih =>
      simp only [List.cons_append, processTasks, List.append_eq]
      rw [ih (processTask b m).1]
      simp [List.append_assoc]

theorem processTask_state_cases (b : Bridge) (m : Msg InspectorAction) :
    (processTask b m).1.state = b.state ∨
    (processTask b m).1.state = .kDone ∨
    (processTask b m).1.state = .kAccepting := by
  obtain ⟨action, sid, payload⟩ := m
  cases action
  case kStartSession => simp [processTask, Attach, Write, AppendMessage]
  case kStartSessionUnconditionally => simp [processTask, Attach]
  case kEndSession =>
      simp only [processTask]
      split <;> (try split) <;> simp
  case kSendMessage =>
      simp only [processTask]
      split <;> simp

theorem processTask_state_preserved (b : Bridge) (m : Msg InspectorAction)
    (hm : m.action ≠ .kEndSession) :
    (processTask b m).1.state = b.state := by
  obtain ⟨action, sid, payload⟩ := m
  cases action
  case kStartSession => rfl
  case kStartSessionUnconditionally => rfl
  case kEndSession => exact absurd rfl hm
  case kSendMessage =>
      simp only [processTask]
      split <;> rfl

theorem processTasks_state_preserved (ms : List (Msg InspectorAction))
    (b : Bridge) (hm : ∀ m ∈ ms, m.action ≠ .kEndSession) :
    (processTasks b ms).1.state = b.state := by
  induction ms generalizing b with
  | nil => rfl
  | cons m ms ih =>
      have h1 := processTask_state_preserved b m (hm m (List.mem_cons_self m ms))
      have h2 := ih (processTask b m).1 (fun x hx => hm x (by simp [hx]))
      simp only [processTasks]
      rw [h2, h1]

theorem processTasks_state_ne_new (ms : List (Msg InspectorAction))
    (b : Bridge) (hb : b.state ≠ .kNew) :
    (processTasks b ms).1.state ≠ .kNew := by
  induction ms generalizing b with
  | nil => exact hb
  | cons m ms ih =>
      simp only [processTasks]
      apply ih
      rcases processTask_state_cases b m with h | h | h <;> rw [h] <;>
        first
          | exact hb
          | simp

/-- Number of `kKill` actions in an outgoing queue. -/
def killCount (q : List (Msg TransportAction)) : Nat :=
  q.countP (fun m => m.action == TransportAction.kKill)

theorem processTask_killCount (b : Bridge) (m : Msg InspectorAction) :
    killCount (processTask b m).1.outgoing = killCount b.outgoing := by
  obtain ⟨action, sid, payload⟩ := m
  cases action
  case kStartSession =>
      simp [processTask, Attach, Write, AppendMessage, killCount,
        List.countP_append, List.countP_cons]
  case kStartSessionUnconditionally => rfl
  case kEndSession =>
      simp only [processTask]
      split <;> (try split) <;> rfl
  case kSendMessage =>
      simp only [processTask]
      split <;> rfl

theorem processTasks_killCount (ms : List (Msg InspectorAction)) (b : Bridge) :
    killCount (processTasks b ms).1.outgoing = killCount b.outgoing := by
  induction ms generalizing b with
  | nil => rfl
  | cons m ms ih =>
      simp only [processTasks]
      rw [ih (processTask b m).1, processTask_killCount]

theorem processTask_noJoin (b : Bridge) (m : Msg InspectorAction) :
    Event.threadJoin ∉ (processTask b m).2 := by
  obtain ⟨action, sid, payload⟩ := m
  cases action
  case kStartSession => simp [processTask, Attach, Write, AppendMessage]
  case kStartSessionUnconditionally => simp [processTask, Attach]
  case kEndSession =>
      simp only [processTask]
      split <;> (try split) <;> simp
  case kSendMessage =>
      simp only [processTask]
      split <;> simp

theorem processTasks_noJoin (ms : List (Msg InspectorAction)) (b : Bridge) :
    Event.threadJoin ∉ (processTasks b ms).2 := by
  induction ms generalizing b with
  | nil => simp [processTasks]
  | cons m ms ih =>
      simp only [processTasks, List.mem_append]
      push_neg
      exact ⟨processTask_noJoin b m, ih (processTask b m).1⟩


theorem processTasks_incoming (b : Bridge) (ms : List (Msg InspectorAction)) :
    (processTasks b ms).1.incoming = b.incoming :=
  (processTasks_fields b ms).1

theorem processTasks_dispatching (b : Bridge)
    (ms : List (Msg InspectorAction)) :
    (processTasks b ms).1.dispatching = b.dispatching :=
  (processTasks_fields b ms).2.1

theorem processTasks_dispatchingFlag (b : Bridge)
    (ms : List (Msg InspectorAction)) :
    (processTasks b ms).1.dispatchingFlag = b.dispatchingFlag :=
  (processTasks_fields b ms).2.2

/-- Exact characterisation of the `do/while` drain loop: with enough
fuel it processes `dispatching ++ incoming` in order and leaves both
queues empty.  Processing a task never appends to either drained
queue, which is why `incoming.length + dispatching.length` bounds the
work. -/
theorem dispatchLoop_spec (fuel : Nat) (b : Bridge)
    (h : b.incoming.length + b.dispatching.length < fuel) :
    dispatchLoop fuel b
      = ({ (processTasks b (b.dispatching ++ b.incoming)).1 with
            incoming := [], dispatching := [] },
         (processTasks b (b.dispatching ++ b.incoming)).2) := by
  induction fuel generalizing b with
  | zero => omega
  | succ fuel ih =>
      by_cases hd : b.dispatching = []
      · by_cases hq : b.incoming = []
        · simp [dispatchLoop, SwapBehindLock, hd, hq, processTasks]
        · have hf : 0 < fuel := by
            have := List.length_pos.mpr hq
            omega
          simp [dispatchLoop, SwapBehindLock, hd, hq, processTasks_congr,
            processTasks, ih, hf, processTasks_dispatchingFlag,
            processTasks_incoming, processTasks_dispatching]
      · have hdp : 0 < b.dispatching.length := List.length_pos.mpr hd
        have hf : b.incoming.length < fuel := by omega
        have hd2 : b.dispatching.isEmpty = false := by
          simp [List.isEmpty_iff, hd]
        simp [dispatchLoop, SwapBehindLock, hd2, processTasks_congr,
          processTasks_append, ih, hf, processTasks_dispatchingFlag,
          processTasks_incoming, processTasks_dispatching]

/-- The `DispatchMessages` on a bridge whose re-entrancy flag is clear:
drains `dispatching ++ incoming` through the `switch` and empties both
queues. -/
theorem DispatchMessages_spec (b : Bridge) (h : b.dispatchingFlag = false) :
    DispatchMessages b
      = ({ (processTasks b (b.dispatching ++ b.incoming)).1 with
            incoming := [], dispatching := [], dispatchingFlag := false },
         (processTasks b (b.dispatching ++ b.incoming)).2) := by
  simp only [DispatchMessages, h, Bool.false_eq_true, if_false]
  rw [dispatchLoop_spec _ _ (by simp)]
  simp [processTasks_congr]

theorem DispatchMessages_killCount (b : Bridge) :
    killCount (DispatchMessages b).1.outgoing = killCount b.outgoing := by
  by_cases h : b.dispatchingFlag
  · simp [DispatchMessages, h]
  · rw [DispatchMessages_spec b (by simpa using h)]
    simp [processTasks_killCount]

theorem DispatchMessages_noJoin (b : Bridge) :
    Event.threadJoin ∉ (DispatchMessages b).2 := by
  by_cases h : b.dispatchingFlag
  · simp [DispatchMessages, h]
  · rw [DispatchMessages_spec b (by simpa using h)]
    exact processTasks_noJoin _ _

theorem DispatchMessages_state_preserved (b : Bridge)
    (h : b.dispatchingFlag = false)
    (hm : ∀ m ∈ b.dispatching ++ b.incoming, m.action ≠ .kEndSession) :
    (DispatchMessages b).1.state = b.state := by
  rw [DispatchMessages_spec b h]
  simpa using processTasks_state_preserved _ b hm

theorem DispatchMessages_state_ne_new (b : Bridge) (hb : b.state ≠ .kNew) :
    (DispatchMessages b).1.state ≠ .kNew := by
  by_cases h : b.dispatchingFlag
  · simpa [DispatchMessages, h] using hb
  · rw [DispatchMessages_spec b (by simpa using h)]
    simpa using processTasks_state_ne_new _ b hb

theorem toList_mk (l : List Char) : (String.mk l).toList = l := rfl

theorem hexDigit_hex (k : Nat) (hk : k < 16) : isHexLower (hexDigit k) = true := by
  interval_cases k <;> decide

theorem hexDigit_hex_mod (n : Nat) : isHexLower (hexDigit (n % 16)) = true :=
  hexDigit_hex _ (Nat.mod_lt _ (by norm_num))

theorem land_4095_eq_mod (x : Nat) : x &&& 4095 = x % 4096 := by
  have h := Nat.and_pow_two_sub_one_eq_mod x 12
  norm_num at h
  exact h

theorem land_16383_eq_mod (x : Nat) : x &&& 16383 = x % 16384 := by
  have h := Nat.and_pow_two_sub_one_eq_mod x 14
  norm_num at h
  exact h

theorem lor_16384_eq_add (r : Nat) (h : r < 16384) : r ||| 16384 = 16384 + r := by
  have h2 := Nat.mul_add_lt_is_or (i := 14) (b := r) (by simpa using h) 1
  norm_num at h2
  rw [Nat.lor_comm]
  exact h2.symm

theorem lor_32768_eq_add (r : Nat) (h : r < 32768) : r ||| 32768 = 32768 + r := by
  have h2 := Nat.mul_add_lt_is_or (i := 15) (b := r) (by simpa using h) 1
  norm_num at h2
  rw [Nat.lor_comm]
  exact h2.symm

/-- The leading digit of the third UUID group is always `4`. -/
theorem version_digit (x : Nat) : (x &&& 4095 ||| 16384) / 4096 % 16 = 4 := by
  rw [land_4095_eq_mod]
  have h : x % 4096 < 4096 := Nat.mod_lt _ (by norm_num)
  rw [lor_16384_eq_add _ (by omega)]
  omega

theorem hexDigit_four : hexDigit 4 = '4' := by decide

/-- The leading digit of the fourth UUID group is in `[89ab]`. -/
theorem variant_char (x : Nat) :
    (hexDigit ((x &&& 16383 ||| 32768) / 4096 % 16) == '8' ||
     hexDigit ((x &&& 16383 ||| 32768) / 4096 % 16) == '9' ||
     hexDigit ((x &&& 16383 ||| 32768) / 4096 % 16) == 'a' ||
     hexDigit ((x &&& 16383 ||| 32768) / 4096 % 16) == 'b') = true := by
  rw [land_16383_eq_mod]
  have h : x % 16384 < 16384 := Nat.mod_lt _ (by norm_num)
  rw [lor_32768_eq_add _ (by omega)]
  have hc : (32768 + x % 16384) / 4096 % 16 = 8 ∨
      (32768 + x % 16384) / 4096 % 16 = 9 ∨
      (32768 + x % 16384) / 4096 % 16 = 10 ∨
      (32768 + x % 16384) / 4096 % 16 = 11 := by omega
  rcases hc with hc | hc | hc | hc <;> rw [hc] <;> decide

/-- C9: every string returned by `GenerateID` is a canonical-form RFC
4122 version-4 UUID: for every choice of the eight 16-bit entropy
words the output matches
`^[0-9a-f]\x7b8\x7d-[0-9a-f]\x7b4\x7d-4[0-9a-f]\x7b3\x7d-[89ab][0-9a-f]\x7b3\x7d-[0-9a-f]\x7b12\x7d$`
(36 lowercase-hex characters with hyphens, version nibble 4, variant
nibble in 8/9/a/b). -/
theorem C9_generateID_uuid_shape (entropy : Fin 8 → Nat) :
    uuidV4Shape (GenerateID entropy) = true := by
  simp only [GenerateID, uuidV4Shape, toList_mk, toHex4, List.cons_append,
    List.nil_append, List.append_assoc]
  simp only [uuidV4ShapeChars]
  simp only [List.all_cons, List.all_nil, Bool.and_true, Bool.true_and]
  simp [hexDigit_hex_mod, version_digit, variant_char, hexDigit_four]

/-- C7: processing `kStartSession` connects to the runtime agent,
stores the returned session handle at `sessions[sid]`, and writes
exactly one `kAcceptSession` action to the outgoing queue; processing
`kStartSessionUnconditionally` performs the same connect and store but
writes no `kAcceptSession`. -/
theorem C7_startSession_accept (b : Bridge) (sid : Int) (p : String) :
    (processTask b ⟨.kStartSession, sid, p⟩).1.sessions
        = sessionsInsert b.sessions sid (some b.nextHandle)
    ∧ Event.agentConnect sid b.nextHandle
        ∈ (processTask b ⟨.kStartSession, sid, p⟩).2
    ∧ (processTask b ⟨.kStartSession, sid, p⟩).1.outgoing
        = b.outgoing ++ [⟨.kAcceptSession, sid, ""⟩]
    ∧ (processTask b ⟨.kStartSessionUnconditionally, sid, p⟩).1.sessions
        = sessionsInsert b.sessions sid (some b.nextHandle)
    ∧ Event.agentConnect sid b.nextHandle
        ∈ (processTask b ⟨.kStartSessionUnconditionally, sid, p⟩).2
    ∧ (processTask b ⟨.kStartSessionUnconditionally, sid, p⟩).1.outgoing
        = b.outgoing := by
  refine ⟨rfl, ?_, rfl, rfl, ?_, rfl⟩ <;>
    simp [processTask, Attach, Write, AppendMessage]

/-- C8: processing `kSendMessage` for a session id that is absent from
the table, or whose stored handle is null, changes nothing and invokes
nothing; when a non-null handle is stored, the payload is handed to
that handle for dispatch. -/
theorem C8_sendMessage_drop (b : Bridge) (sid : Int) (p : String) :
    (sessionsFind b.sessions sid = none →
       processTask b ⟨.kSendMessage, sid, p⟩ = (b, []))
    ∧ (sessionsFind b.sessions sid = some none →
       processTask b ⟨.kSendMessage, sid, p⟩ = (b, []))
    ∧ (∀ h, sessionsFind b.sessions sid = some (some h) →
       processTask b ⟨.kSendMessage, sid, p⟩
         = (b, [Event.sessionDispatch sid h p])) := by
  refine ⟨fun h => ?_, fun h => ?_, fun hd h => ?_⟩ <;>
    simp [processTask, h]

/-- Witness for C8 at a concrete input: sending to session 99 of a
fresh bridge (empty session table) is a silent no-op. -/
theorem C8_witness :
    processTask (initBridge false) ⟨.kSendMessage, 99, "x"⟩
      = (initBridge false, []) :=
  (C8_sendMessage_drop (initBridge false) 99 "x").1 rfl

/-- C6: a processed `kEndSession` that empties the session table moves
the state to `kDone` exactly when the state was `kShutDown`, and to
`kAccepting` otherwise; afterwards the state is `kDone` or
`kAccepting` and the table is empty. -/
theorem C6_endSession_state (b : Bridge) (sid : Int) (p : String)
    (h : sessionsErase b.sessions sid = []) :
    ((processTask b ⟨.kEndSession, sid, p⟩).1.state = State.kDone
       ↔ b.state = State.kShutDown)
    ∧ ((processTask b ⟨.kEndSession, sid, p⟩).1.state = State.kDone
       ∨ (processTask b ⟨.kEndSession, sid, p⟩).1.state = State.kAccepting)
    ∧ (processTask b ⟨.kEndSession, sid, p⟩).1.sessions = [] := by
  by_cases hs : b.state = State.kShutDown <;> simp [processTask, h, hs]

/-- Bridge in `kShutDown` with one live session, used as the concrete
input of the C6 witness. -/
def c6w : Bridge :=
  { initBridge false with state := State.kShutDown, sessions := [(1, some 0)] }

/-- Witness for C6: draining `kEndSession(1)` on `c6w` empties the
table and moves `kShutDown` to `kDone`. -/
theorem C6_witness :
    ((processTask c6w ⟨.kEndSession, 1, ""⟩).1.state = State.kDone
       ↔ c6w.state = State.kShutDown)
    ∧ ((processTask c6w ⟨.kEndSession, 1, ""⟩).1.state = State.kDone
       ∨ (processTask c6w ⟨.kEndSession, 1, ""⟩).1.state = State.kAccepting)
    ∧ (processTask c6w ⟨.kEndSession, 1, ""⟩).1.sessions = [] :=
  C6_endSession_state c6w 1 "" (by decide)

/-- Bridge whose outgoing queue already holds one message, used as the
concrete input of the C1 counterexample. -/
def c1b : Bridge := (Write (initBridge false) .kStop 0 "").1

/-- C1 counterexample: the claim "a wakeup is issued iff the queue was
empty at entry" is false for `InspectorIo::Write`: pushing onto the
non-empty outgoing queue of `c1b` has `AppendMessage` return `false`,
yet `Write` still issues the I/O-thread wakeup. -/
theorem C1_counterexample :
    c1b.outgoing ≠ []
    ∧ (AppendMessage c1b.outgoing TransportAction.kStop 0 "").1 = false
    ∧ (Write c1b .kStop 0 "").2 = [Event.wakeIoThread] := by decide

/-- C1 (amended): `PostIncomingMessage` wakes the runtime thread
exactly when `AppendMessage` returned true (incoming queue empty at
entry), but `InspectorIo::Write` discards `AppendMessage`'s return and
issues an I/O-thread wakeup on every push. -/
theorem C1_wakeup_amended (b : Bridge) (ia : InspectorAction)
    (ta : TransportAction) (sid : Int) (p : String) :
    ((PostIncomingMessage b ia sid p).2.count Event.wakeRuntimeThread
       = if (AppendMessage b.incoming ia sid p).1 then 1 else 0)
    ∧ ((PostIncomingMessage b ia sid p).2.count Event.wakeRuntimeThread
       = if b.incoming.isEmpty then 1 else 0)
    ∧ (Write b ta sid p).2.count Event.wakeIoThread = 1 := by
  refine ⟨?_, ?_, ?_⟩ <;> by_cases h : b.incoming.isEmpty <;>
    simp [PostIncomingMessage, Write, AppendMessage, h]

/-- Bridge with two pending `kStartSession` messages, used as the
concrete input of the C4 counterexample. -/
def c4b : Bridge :=
  { initBridge false with
      state := State.kAccepting,
      incoming := [⟨.kStartSession, 1, ""⟩, ⟨.kStartSession, 2, ""⟩] }

/-- C4 counterexample: draining two attaches prints "Debugger
attached." twice, contradicting the claim that exactly one emission
occurs over the whole sequence (only at the first attach). -/
theorem C4_counterexample :
    ((DispatchMessages c4b).2.count (Event.stderrMsg "Debugger attached.\n") = 2)
    ∧ ¬ ((DispatchMessages c4b).2.count (Event.stderrMsg "Debugger attached.\n")
          = 1) := by decide

/-- C4 (amended): `InspectorIo::Attach` prints "Debugger attached.\n"
unconditionally, so over every processed sequence the number of
emissions equals the number of
`kStartSession`/`kStartSessionUnconditionally` messages — not one. -/
theorem C4_attach_amended (b : Bridge) (ms : List (Msg InspectorAction)) :
    (processTasks b ms).2.count (Event.stderrMsg "Debugger attached.\n")
      = ms.countP (fun m => m.action == InspectorAction.kStartSession
          || m.action == InspectorAction.kStartSessionUnconditionally) := by
  induction ms generalizing b with
  | nil => rfl
  | cons m ms ih =>
      simp only [processTasks, List.count_append, List.countP_cons, ih]
      rw [Nat.add_comm]
      congr 1
      obtain ⟨action, sid, payload⟩ := m
      cases action
      case kStartSession => simp [processTask, Attach, Write, AppendMessage]
      case kStartSessionUnconditionally => simp [processTask, Attach]
      case kEndSession =>
          have hp : (InspectorAction.kEndSession == InspectorAction.kStartSession
              || InspectorAction.kEndSession
                  == InspectorAction.kStartSessionUnconditionally) = false := by
            decide
          simp only [processTask]
          split
          · split <;> simp [hp]
          · simp [hp]
      case kSendMessage =>
          have hp : (InspectorAction.kSendMessage == InspectorAction.kStartSession
              || InspectorAction.kSendMessage
                  == InspectorAction.kStartSessionUnconditionally) = false := by
            decide
          simp only [processTask]
          split
          · simp [hp]
          · simp [hp]

/-- C5 counterexample: in waiting mode, the message consisting of
exactly the claim's substring (no surrounding double quotes) does not
clear `waiting_` and does not call `ResumeStartup`, because the source
searches for the quoted form. -/
theorem C5_counterexample :
    strContains "Runtime.runIfWaitingForDebugger"
        "Runtime.runIfWaitingForDebugger" = true
    ∧ (InspectorIoDelegate.MessageReceived (initDelegate true)
        (initBridge true) 7 "Runtime.runIfWaitingForDebugger").1.waiting = true
    ∧ Event.resumeStartup ∉ (InspectorIoDelegate.MessageReceived
        (initDelegate true) (initBridge true) 7
        "Runtime.runIfWaitingForDebugger").2.2 := by decide

/-- C5 (amended): `ResumeStartup` fires iff the delegate is waiting
and the message contains the quoted substring (the double-quote
characters are part of the pattern); `waiting_` is cleared exactly
when it fires, so it fires at most once per lifetime; and in all cases
the message is posted to the incoming queue as `kSendMessage`. -/
theorem C5_resume_amended (d : Delegate) (b : Bridge) (sid : Int)
    (msg : String) :
    (Event.resumeStartup
        ∈ (InspectorIoDelegate.MessageReceived d b sid msg).2.2
      ↔ (d.waiting = true
         ∧ strContains msg "\"Runtime.runIfWaitingForDebugger\"" = true))
    ∧ (InspectorIoDelegate.MessageReceived d b sid msg).1.waiting
        = (d.waiting && !(strContains msg "\"Runtime.runIfWaitingForDebugger\""))
    ∧ (InspectorIoDelegate.MessageReceived d b sid msg).2.1.incoming
        = b.incoming ++ [⟨.kSendMessage, sid, msg⟩] := by
  by_cases hw : d.waiting <;>
    by_cases hs : strContains msg "\"Runtime.runIfWaitingForDebugger\"" <;>
    by_cases hq : b.incoming.isEmpty <;>
    simp [InspectorIoDelegate.MessageReceived, PostIncomingMessage,
      AppendMessage, hw, hs, hq]

theorem sessionsInsert_ne_nil (s : List (Int × Option Nat)) (k : Int)
    (v : Option Nat) : sessionsInsert s k v ≠ [] := by
  cases s with
  | nil => simp [sessionsInsert]
  | cons h t =>
      simp only [sessionsInsert]
      split <;> simp

/-- Bridge right after a successful non-waiting `Start`. -/
def c2b1 : Bridge := { initBridge false with state := State.kAccepting }

/-- The delegate reporting session 1 to the freshly started bridge. -/
def c2step : Delegate × Bridge × List Event :=
  InspectorIoDelegate.StartSession (initDelegate false) c2b1 1

/-- The bridge after draining that `kStartSession` message. -/
def c2bad : Bridge := (DispatchMessages c2step.2.1).1

/-- C2 counterexample: `c2bad` is reachable (construct, `Start`
successfully, transport reports `StartSession(1)`, drain) and has
`state_ = kAccepting` with a non-empty session table, refuting the
claimed invariant. -/
theorem C2_counterexample :
    Reached c2bad c2step.1
    ∧ c2bad.state = State.kAccepting
    ∧ c2bad.sessions ≠ [] := by
  refine ⟨?_, by decide, by decide⟩
  have h0 : Reached (initBridge false) (initDelegate false) := Reached.init false
  have heq : Start (initBridge false) true = some (c2b1, true, []) := by decide
  have h1 : Reached c2b1 (initDelegate false) :=
    Reached.startStep true h0 heq
  have h2 : Reached c2step.2.1 c2step.1 :=
    Reached.startSessionStep 1 h1
  exact Reached.dispatchStep h2

/-- C2 (amended): `state_ = kAccepting` does not imply an empty
session table: processing `kStartSession` while the state is
`kAccepting` adds an entry to `sessions_` and leaves the state
`kAccepting`, so the implication holds only until the first attach and
again after an `EndSession` empties the table. -/
theorem C2_accepting_amended (b : Bridge) (sid : Int) (p : String)
    (hs : b.state = State.kAccepting) :
    (processTask b ⟨.kStartSession, sid, p⟩).1.state = State.kAccepting
    ∧ (processTask b ⟨.kStartSession, sid, p⟩).1.sessions ≠ [] := by
  constructor
  · rw [processTask_state_preserved b ⟨.kStartSession, sid, p⟩ (by simp)]
    exact hs
  · simp [processTask, Attach, Write, AppendMessage, sessionsInsert_ne_nil]

/-- Witness for C2 (amended) at a concrete input. -/
theorem C2_witness :
    (processTask { initBridge false with state := State.kAccepting }
        ⟨.kStartSession, 1, ""⟩).1.state = State.kAccepting
    ∧ (processTask { initBridge false with state := State.kAccepting }
        ⟨.kStartSession, 1, ""⟩).1.sessions ≠ [] :=
  C2_accepting_amended { initBridge false with state := State.kAccepting }
    1 "" rfl

/-- Bridge with one live session and a pending `kEndSession`, used as
the concrete input of the C3 counterexample. -/
def c3b : Bridge :=
  { initBridge false with
      state := State.kAccepting,
      sessions := [(1, some 0)],
      incoming := [⟨.kEndSession, 1, ""⟩] }

/-- C3 counterexample: `Stop` on `c3b` drains the pending `kEndSession`
which empties the table while the state is `kShutDown`, so `Stop`
returns with the bridge in `kDone`, not `kShutDown` as claimed. -/
theorem C3_counterexample :
    (Stop c3b).map (fun r => r.1.state) = some State.kDone
    ∧ State.kDone ≠ State.kShutDown := by decide

/-- C3 (amended): `Stop` enqueues exactly one `kKill` on the outgoing
queue, joins the I/O thread exactly once, and runs one final dispatch
of the incoming queue; the state on return is `kShutDown` provided the
final drain holds no `kEndSession` message (a drained `kEndSession`
that empties the table moves the state further, e.g. to `kDone`). -/
theorem C3_stop_amended (b : Bridge) (hf : b.dispatchingFlag = false)
    (hnoend : ∀ m ∈ b.dispatching ++ b.incoming, m.action ≠ .kEndSession)
    (b2 : Bridge) (evs : List Event) (heq : Stop b = some (b2, evs)) :
    b2.state = State.kShutDown
    ∧ killCount b2.outgoing = killCount b.outgoing + 1
    ∧ evs.count Event.threadJoin = 1 := by
  unfold Stop at heq
  split at heq
  · simp at heq
  · simp only [Option.some.injEq, Prod.mk.injEq] at heq
    obtain ⟨hb2, hevs⟩ := heq
    subst hb2
    subst hevs
    refine ⟨?_, ?_, ?_⟩
    · rw [DispatchMessages_state_preserved]
      · simpa [Write, AppendMessage] using hf
      · simpa [Write, AppendMessage] using hnoend
    · rw [DispatchMessages_killCount]
      simp [Write, AppendMessage, killCount, List.countP_append,
        List.countP_cons]
    · rw [List.count_append, List.count_append]
      have hn := DispatchMessages_noJoin
        { (Write b .kKill 0 "").1 with state := State.kShutDown }
      rw [List.count_eq_zero.mpr hn]
      simp [Write]

/-- Bridge with one live session and empty queues, the concrete input
of the C3 witness. -/
def c3w : Bridge :=
  { initBridge false with state := State.kAccepting, sessions := [(5, some 0)] }

/-- The bridge `Stop c3w` returns: one `kKill` enqueued, state
`kShutDown`. -/
def c3wPost : Bridge :=
  { c3w with state := State.kShutDown, outgoing := [⟨.kKill, 0, ""⟩] }

/-- Witness for C3 (amended) at the concrete input `c3w`. -/
theorem C3_witness :
    c3wPost.state = State.kShutDown
    ∧ killCount c3wPost.outgoing = killCount c3w.outgoing + 1
    ∧ [Event.wakeIoThread, Event.threadJoin].count Event.threadJoin = 1 :=
  C3_stop_amended c3w rfl (by decide) c3wPost
    [Event.wakeIoThread, Event.threadJoin] (by decide)

/-- Any bridge whose state is not `kNew` makes `Start` abort. -/
theorem Start_abort (c : Bridge) (hc : c.state ≠ State.kNew) (o : Bool) :
    Start c o = none := by
  simp [Start, hc]

/-- A successful `Start` leaves the state different from `kNew`. -/
theorem Start_some_state (b : Bridge) (ok : Bool) (b2 : Bridge) (ret : Bool)
    (evs : List Event) (h : Start b ok = some (b2, ret, evs)) :
    b2.state ≠ State.kNew := by
  by_cases hn : b.state = State.kNew
  · simp only [Start, hn, if_true] at h
    by_cases hok : ok
    · simp only [hok, if_true] at h
      by_cases hw : b.waitForConnect
      · simp only [hw, if_true, Option.some.injEq, Prod.mk.injEq] at h
        obtain ⟨h1, -, -⟩ := h
        rw [← h1]
        exact DispatchMessages_state_ne_new _ (by simp)
      · simp only [hw, Bool.false_eq_true, if_false, Option.some.injEq,
          Prod.mk.injEq] at h
        obtain ⟨h1, -, -⟩ := h
        rw [← h1]
        simp
    · simp only [hok, Bool.false_eq_true, if_false, Option.some.injEq,
        Prod.mk.injEq] at h
      obtain ⟨h1, -, -⟩ := h
      rw [← h1]
      simp
  · simp [Start, hn] at h

/-- C10: `Start` aborts (the fatal `CHECK_EQ(state_, State::kNew)`)
exactly when the bridge state is not `kNew`; consequently after any
successful `Start` — which leaves the state `kAccepting` or `kError` —
a second `Start` always aborts rather than returning false. -/
theorem C10_start_precondition (b : Bridge) (ok : Bool) :
    (Start b ok = none ↔ b.state ≠ State.kNew)
    ∧ (∀ b2 ret evs, Start b ok = some (b2, ret, evs) →
        ∀ ok2, Start b2 ok2 = none) := by
  constructor
  · constructor
    · intro h
      by_contra hn
      simp only [Start, hn, if_true] at h
      by_cases hok : ok
      · simp only [hok, if_true] at h
        by_cases hw : b.waitForConnect <;> simp [hw] at h
      · simp [hok] at h
    · intro hn
      exact Start_abort b hn ok
  · intro b2 ret evs h ok2
    exact Start_abort b2 (Start_some_state b ok b2 ret evs h) ok2

/-- Witness for C10: starting an already-started bridge (state
`kAccepting`) aborts. -/
theorem C10_witness :
    Start { initBridge false with state := State.kAccepting } true = none :=
  (C10_start_precondition { initBridge false with state := State.kAccepting }
    true).1.mpr (by decide)
